import Mathlib

/-!
Shallow embedding of `src/ASiC_S.cpp` from libdigidocpp (the ASiC-S container:
loading state machine, archive-timestamp chaining on `sign`, `save`, and the
format detector), with theorems settling the specification claims.

External collaborators (ZIP reader, XML parser/serializer, digest engine,
signature objects, path utilities) are modelled abstractly, following the
specification's component boundaries; everything taken from the specification
rather than the source is marked `Modelled from the spec`.
-/

namespace ASiCS


/-- Decimal digit character for `n < 10` (ASCII `'0' + n`), as produced by the
`%03zu` conversion in `Log::format`. -/
def digitChar (n : Nat) : Char := Char.ofNat (48 + n)

/-- Decimal digits of `n`, most significant first.  Fuel-structured (so it
reduces in the kernel); `decDigits` passes fuel `n`, which always suffices. -/
def decDigitsAux : Nat → Nat → List Char
  | 0, n => [digitChar (n % 10)]
  | fuel+1, n => if n < 10 then [digitChar n] else decDigitsAux fuel (n / 10) ++ [digitChar (n % 10)]

/-- Decimal digits of `n`, most significant first. -/
def decDigits (n : Nat) : List Char := decDigitsAux n n

/-- Zero-padded 3-digit decimal rendering of `n`: the semantics of `%03zu`. -/
def pad3Chars (n : Nat) : List Char :=
  (if n < 10 then ['0', '0'] else if n < 100 then ['0'] else []) ++ decDigits n

/-- Zero-padded 3-digit decimal rendering of `n`, as a string. -/
def pad3 (n : Nat) : String := ⟨pad3Chars n⟩

/-- `Log::format("META-INF/timestamp%03zu.tst", i)`. -/
def tstFmt (i : Nat) : String := "META-INF/timestamp" ++ pad3 i ++ ".tst"

/-- `Log::format("META-INF/ASiCArchiveManifest%03zu.xml", i)`. -/
def mfsFmt (i : Nat) : String := "META-INF/ASiCArchiveManifest" ++ pad3 i ++ ".xml"

/-- Fold step reading a decimal digit string back into a number (proof device
for injectivity of the format functions). -/
def valStep (a : Nat) (c : Char) : Nat := 10 * a + (c.toNat - 48)

/-- Decimal value of a digit string. -/
def valOf (l : List Char) : Nat := l.foldl valStep 0

/-- The head-manifest entry name used throughout `ASiC_S.cpp`. -/
def headManifestName : String := "META-INF/ASiCArchiveManifest.xml"

/-- `ASiC_S::Data`: one Metadata Store entry — `{name, mime, data, root}`
(`root` defaults to `false` in the source). `digest` feeds `data` to the
external Digest Engine; the engine itself is out of scope, so a digest is
represented by the byte stream fed to it. -/
structure Data where
  name : String
  mime : String
  data : String
  root : Bool := false
deriving DecidableEq, Repr

/-- `Data::digest`: the digest over the entry's content (Digest Engine abstracted). -/
def Data.digest (d : Data) : String := d.data

/-- A data file of the container (`DataFile` with its name, media type and bytes). -/
structure DataFileRec where
  fileName : String
  mediaType : String
  content : String
deriving DecidableEq, Repr

/-- Modelled from the spec: `ASIC_TST_PROFILE`, the timestamp-token signing
profile constant (declared outside `src/`). -/
def ASIC_TST_PROFILE : String := "TimeStampToken"

/-- Modelled from the spec: the ASiC-S media-type string `MIMETYPE_ASIC_S`
(declared outside `src/`). -/
def MIMETYPE_ASIC_S : String := "application/vnd.etsi.asic-s+zip"

/-- Media type of timestamp-token entries (literal in `ASiC_S.cpp`). -/
def tstTokenMime : String := "application/vnd.etsi.timestamp-token"

/-- Signature objects, as a closed tagged variant (spec §9): `SignatureTST`
built from a raw token (`META-INF/timestamp.tst`), `SignatureTST` wrapping an
archive manifest plus its token, and `SignatureXAdES_LTA` parsed from a shared
`signatures.xml` document.  The signature classes live outside `src/`. -/
inductive Sig where
  | tstSimple (tstData : String)
  | tstManifest (file : String) (tstData : String)
  | xades
deriving DecidableEq, Repr

/-- Modelled from the spec: `Signature::profile()` — the timestamp-token
variants report the timestamp-token profile, the XAdES long-term variant a
different profile string. -/
def Sig.profile : Sig → String
  | .tstSimple _ => ASIC_TST_PROFILE
  | .tstManifest _ _ => ASIC_TST_PROFILE
  | .xades => "XAdES-LTA"

/-- One `DataObjectReference` (or the parsed form of one) of an `ASiCManifest`
document: `URI`, `MimeType`, the optional `Rootfile` flag, and the digest
carried by the nested `DigestMethod`/`DigestValue` pair. -/
structure Ref where
  uri : String
  mimeType : String
  rootfile : Bool
  digest : String
deriving DecidableEq, Repr

/-- An `ASiCManifest` document: its `DataObjectReference` children in document
order and its single `SigReference` (URI and MimeType). -/
structure Manifest where
  refs : List Ref
  sigURI : String
  sigMime : String
deriving DecidableEq, Repr

/-- The container state owned by `ASiC_S`: the data files (at most one), the
Signature Chain, and the Metadata Store, all in insertion order. -/
structure ContainerState where
  dataFiles : List DataFileRec
  signatures : List Sig
  metadata : List Data
deriving DecidableEq, Repr

/-- Error kinds of the spec's §7 taxonomy, standing for the `THROW`s of
`ASiC_S.cpp` and of the external collaborators it calls. -/
inductive Err where
  | duplicateSignatureEntryPoint
  | duplicateDataFile
  | unsupportedSubfolder
  | missingDataObject
  | missingSignature
  | unsupportedProfile
  | schemaValidationFailure
  | entryNotFound
  | notImplemented
deriving DecidableEq, Repr

/-- A ZIP entry: name and content bytes. -/
structure ZipEntry where
  name : String
  content : String
deriving DecidableEq, Repr

/-- A ZIP archive (`ZipSerialize` is external; only entry listing and
extraction are consumed by the core). -/
structure Zip where
  entries : List ZipEntry
deriving DecidableEq, Repr

/-- `ZipSerialize::list()`: entry names in archive order. -/
def Zip.list (z : Zip) : List String := z.entries.map (·.name)

/-- `ZipSerialize::extract`: the content of the named entry; `none` when the
entry is absent (the external reader fails in that case). -/
def Zip.extract (z : Zip) (file : String) : Option String :=
  (z.entries.find? (fun e => e.name == file)).map (·.content)

/-- Modelled from the spec: the external collaborators consumed by the core —
XML parsing/validation of `ASiCManifest` documents (`none` = parse or schema
failure), parsing of a shared `signatures.xml` document (the number of
signature elements; `none` = parse failure), and the URI path codecs of
`util::File`. -/
structure Externals where
  parseManifest : String → Option Manifest
  parseSignaturesCount : String → Option Nat
  fromUriPath : String → String
  toUriPath : String → String

/-- `any_of(metadata, [](f){ return f.name == n; })`. -/
def taken (md : List Data) (n : String) : Bool := md.any (fun f => f.name == n)

/-- The linear name probe of `ASiC_S::sign`: starting from candidate index
`start`, return the first formatted name absent from the Metadata Store.  The
source loop runs until it finds an unused name (always, since the store is
finite); `fuel` makes that evident, and the callers pass enough fuel for the
probe to always reach an unused name. -/
def probeName (md : List Data) (fmt : Nat → String) : Nat → Nat → String
  | start, 0 => fmt start
  | start, fuel+1 => if taken md (fmt start) then probeName md fmt (start+1) fuel else fmt start

/-- The timestamp-name probe of `ASiC_S::sign` (lines 193–196): first candidate
`META-INF/timestamp001.tst`, counter incremented on each collision. -/
def nextTstName (md : List Data) : String := probeName md tstFmt 1 (md.length + 1)

/-- The manifest-name probe of `ASiC_S::sign` (lines 225–228): first candidate
`META-INF/ASiCArchiveManifest001.xml`.  (The source initializes the counter to
0 and pre-increments, so the candidate `001` is tested twice before `002`;
re-testing a taken name does not change the result, so the probe is the same
linear scan from index 1.) -/
def nextMfsName (md : List Data) : String := probeName md mfsFmt 1 (md.length + 1)

/-- `name` is the first name of the family `fmt` with index at least `start`
that is absent from the store `md`. -/
def IsFirstUnused (md : List Data) (fmt : Nat → String) (start : Nat) (name : String) : Prop :=
  ∃ k, start ≤ k ∧ taken md (fmt k) = false ∧
    (∀ j, start ≤ j → j < k → taken md (fmt j) = true) ∧ name = fmt k

/-- The `starts_with` lambda of the loading constructor. -/
def startsWith (str needle : String) : Bool :=
  str.data.take needle.data.length == needle.data

/-- Modelled from the spec: `util::File::directory` (outside `src/`) — the
directory component of a path, up to and including the final slash; empty when
the path has no directory component. -/
def directoryOf (s : String) : String := ⟨(s.data.reverse.dropWhile (· ≠ '/')).reverse⟩

/-- The subfolder test of the loading constructor (lines 113–114):
`!directory.empty() && directory != "/" && directory != "./"`. -/
def isSubdirPath (file : String) : Bool :=
  let dir := directoryOf file
  dir != "" && dir != "/" && dir != "./"

/-- The iteration of `DataObjectReference` elements inside the recursive
lambda `add` of the loading constructor: references whose `Rootfile` attribute
is `"true"` are resolved (by `f`, the recursive resolver) in document order. -/
def goRefs (ext : Externals) (f : String → String → ContainerState → Except Err ContainerState) :
    List Ref → ContainerState → Except Err ContainerState
  | [], st => .ok st
  | r :: rs, st =>
    if r.rootfile then
      match f (ext.fromUriPath r.uri) r.mimeType st with
      | .error e => .error e
      | .ok st' => goRefs ext f rs st'
    else goRefs ext f rs st

/-- The recursive lambda `add` of the loading constructor (lines 91–108):
extract the manifest, parse and schema-validate it, recursively resolve every
`Rootfile="true"` reference, then load the `SigReference` token, append a
`SignatureTST` over the manifest, and record both the manifest and the token
in the Metadata Store (`root` left at its default `false`).

The source recursion is unbounded (it diverges on a cyclic manifest chain);
following spec §9 the embedding bounds the depth with `fuel` and reports an
exhausted bound as a schema failure.  Callers pass one more than the archive's
entry count, which covers every acyclic chain. -/
def addManifest (ext : Externals) (z : Zip) :
    Nat → String → String → ContainerState → Except Err ContainerState
  | 0 => fun _ _ _ => .error .schemaValidationFailure
  | fuel+1 => fun file mime st =>
    match z.extract file with
    | none => .error .entryNotFound
    | some xml =>
      match ext.parseManifest xml with
      | none => .error .schemaValidationFailure
      | some doc =>
        match goRefs ext (addManifest ext z fuel) doc.refs st with
        | .error e => .error e
        | .ok st' =>
          let uri := ext.fromUriPath doc.sigURI
          match z.extract uri with
          | none => .error .entryNotFound
          | some tst =>
            .ok { st' with
              signatures := st'.signatures ++ [.tstManifest file tst],
              metadata := st'.metadata ++ [⟨file, mime, xml, false⟩, ⟨uri, doc.sigMime, tst, false⟩] }

/-- One iteration of the entry-classification loop of the loading constructor
(lines 68–120), in the source's priority order. -/
def processEntry (ext : Externals) (z : Zip) (st : ContainerState) (file : String) :
    Except Err ContainerState :=
  if file = "mimetype" then .ok st
  else if file = "META-INF/timestamp.tst" then
    if st.signatures ≠ [] then .error .duplicateSignatureEntryPoint
    else match z.extract file with
      | none => .error .entryNotFound
      | some tst => .ok { st with
          signatures := st.signatures ++ [.tstSimple tst],
          metadata := st.metadata ++ [⟨file, tstTokenMime, tst, false⟩] }
  else if file = "META-INF/signatures.xml" then
    if st.signatures ≠ [] then .error .duplicateSignatureEntryPoint
    else match z.extract file with
      | none => .error .entryNotFound
      | some xml =>
        match ext.parseSignaturesCount xml with
        | none => .error .schemaValidationFailure
        | some n => .ok { st with signatures := st.signatures ++ List.replicate n .xades }
  else if file = "META-INF/ASiCArchiveManifest.xml" then
    addManifest ext z (z.entries.length + 1) file "text/xml" st
  else if startsWith file "META-INF/" then .ok st
  else if isSubdirPath file then .error .unsupportedSubfolder
  else if st.dataFiles ≠ [] then .error .duplicateDataFile
  else match z.extract file with
    | none => .error .entryNotFound
    | some content => .ok { st with
        dataFiles := st.dataFiles ++ [⟨file, "application/octet-stream", content⟩] }

/-- The whole classification loop, over the entry names in archive order. -/
def processEntries (ext : Externals) (z : Zip) :
    List String → ContainerState → Except Err ContainerState
  | [], st => .ok st
  | f :: fs, st =>
    match processEntry ext z st f with
    | .error e => .error e
    | .ok st' => processEntries ext z fs st'

/-- The empty container state a freshly constructed `ASiC_S` starts from. -/
def emptyState : ContainerState := ⟨[], [], []⟩

/-- `ASiC_S::ASiC_S(const string &path)`: classify every ZIP entry, then apply
the final validation gate (lines 122–125).  (The base-class mimetype check of
`ASiContainer::load` is external and out of scope.) -/
def load (ext : Externals) (z : Zip) : Except Err ContainerState :=
  match processEntries ext z z.list emptyState with
  | .error e => .error e
  | .ok st =>
    if st.dataFiles = [] then .error .missingDataObject
    else if st.signatures = [] then .error .missingSignature
    else .ok st

/-- Modelled from the spec: XML serialization (`doc.save`) is external to the
core; the embedding renders the abstract manifest document to bytes with a
fixed canonical encoding (only the identity of the bytes matters here). -/
def serializeManifest (m : Manifest) : String :=
  "<ASiCManifest><SigReference " ++ m.sigMime ++ " " ++ m.sigURI ++ "/>"
    ++ (m.refs.map (fun r =>
        "<DataObjectReference " ++ r.uri ++ " " ++ r.mimeType ++ " "
          ++ (if r.rootfile then "Rootfile " else "") ++ r.digest ++ "/>")).foldl (· ++ ·) ""
    ++ "</ASiCManifest>"

/-- The `DataObjectReference` that `sign`'s `addRef` lambda appends for a
named artifact: URI-encoded name, media type, optional root flag, digest. -/
def refOf (ext : Externals) (name mime : String) (root : Bool) (digest : String) : Ref :=
  ⟨ext.toUriPath name, mime, root, digest⟩

/-- The `for(auto &data : metadata)` loop of `sign` (lines 221–233): walk the
store in order, rename any entry currently named
`META-INF/ASiCArchiveManifest.xml` to the first unused numbered manifest name
(probing against the store as mutated so far, exactly as `any_of` over the
live vector does) and mark it root, and collect a `DataObjectReference` for
every (possibly renamed) entry. -/
def renameAndCollect (ext : Externals) :
    List Data → List Data → List Ref → (List Data × List Ref)
  | processed, [], refs => (processed, refs)
  | processed, d :: rest, refs =>
    if d.name = headManifestName then
      let all := processed ++ d :: rest
      let mfsName := probeName all mfsFmt 1 (all.length + 1)
      let d' : Data := ⟨mfsName, d.mime, d.data, true⟩
      renameAndCollect ext (processed ++ [d']) rest
        (refs ++ [refOf ext d'.name d'.mime d'.root d'.digest])
    else
      renameAndCollect ext (processed ++ [d]) rest
        (refs ++ [refOf ext d.name d.mime d.root d.digest])

/-- `ASiC_S::sign` (lines 182–245).  Returns the container state at the moment
the call ends — also on failure, matching the C++ exception being thrown
before any mutation — together with the outcome.  `newTst` stands for the
token bytes produced by the external `SignatureTST::save()`; `dataFiles.front()`
on a container without a data file is undefined behaviour in the source, so the
embedding is meaningful only when a data file exists (`headD` is a total
stand-in). -/
def sign (ext : Externals) (st : ContainerState) (signerProfile : String) (newTst : String) :
    ContainerState × Except Err Sig :=
  if signerProfile ≠ ASIC_TST_PROFILE then (st, .error .unsupportedProfile)
  else if st.signatures = [] then
    let sig := Sig.tstSimple newTst
    ({ st with
        signatures := st.signatures ++ [sig],
        metadata := st.metadata ++ [⟨"META-INF/timestamp.tst", tstTokenMime, newTst, false⟩] },
      .ok sig)
  else
    let tstName := nextTstName st.metadata
    let df := st.dataFiles.headD ⟨"", "", ""⟩
    let dataRef := refOf ext df.fileName df.mediaType false df.content
    let rr := renameAndCollect ext [] st.metadata []
    let doc : Manifest := ⟨dataRef :: rr.2, tstName, tstTokenMime⟩
    let md2 := rr.1 ++ [⟨headManifestName, "text/xml", serializeManifest doc, false⟩]
    let sig := Sig.tstManifest headManifestName newTst
    ({ st with
        metadata := md2 ++ [⟨tstName, tstTokenMime, newTst, false⟩],
        signatures := st.signatures ++ [sig] },
      .ok sig)

/-- `ASiC_S::save` (lines 171–180): the archive files written for the
signature artifacts, as (name, content) pairs in Metadata Store order
(`zproperty` supplies external ZIP bookkeeping and is out of scope). -/
def save (st : ContainerState) : Except Err (List (String × String)) :=
  match st.signatures with
  | [] => .ok []
  | s :: _ =>
    if s.profile ≠ ASIC_TST_PROFILE then .error .unsupportedProfile
    else .ok (st.metadata.map (fun d => (d.name, d.data)))

/-- Modelled from the spec: `util::File::fileExtension(path, exts)` (outside
`src/`) — whether the path's extension (the part after the last dot) is one of
`exts`. -/
def hasExtension (path : String) (exts : List String) : Bool :=
  let rev := path.data.reverse
  if rev.any (· = '.') then
    exts.any (fun e => (⟨(rev.takeWhile (· ≠ '.')).reverse⟩ : String) == e)
  else false

/-- `ASiC_S::isContainerSimpleFormat` (lines 254–273).  The speculative ZIP
probe is external I/O: `zipProbe` is `none` when opening the archive raises
(the swallowed exception path) and `some z` otherwise; `readMimetype` reads
the `mimetype` entry (an exception when it is absent, likewise swallowed). -/
def isContainerSimpleFormat (path : String) (zipProbe : Option Zip) : Bool :=
  if hasExtension path ["asice", "sce", "bdoc"] then false
  else if hasExtension path ["asics", "scs"] then true
  else
    match zipProbe with
    | none => false
    | some z =>
      match z.list.head? with
      | none => false
      | some first =>
        match z.extract "mimetype" with
        | none => false
        | some content => first == "mimetype" && content == MIMETYPE_ASIC_S

/-- Trivial externals for concrete test containers: no parseable documents. -/
def extT : Externals := ⟨fun _ => none, fun _ => none, id, id⟩

/-- A minimal well-formed ASiC-S archive: mimetype, one simple timestamp
token, one data file. -/
def zT : Zip := ⟨[⟨"mimetype", "application/vnd.etsi.asic-s+zip"⟩,
  ⟨"META-INF/timestamp.tst", "T0"⟩, ⟨"doc.txt", "hello"⟩]⟩

/-- The container state produced by loading `zT`. -/
def resT : ContainerState := ⟨[⟨"doc.txt", "application/octet-stream", "hello"⟩],
  [.tstSimple "T0"], [⟨"META-INF/timestamp.tst", tstTokenMime, "T0", false⟩]⟩

/-- Externals whose manifest parser accepts exactly the content `"MANIFEST"`,
as a manifest with no `Rootfile` references whose token is
`META-INF/timestamp001.tst`. -/
def extC : Externals :=
  ⟨fun s => if s = "MANIFEST" then some ⟨[], "META-INF/timestamp001.tst", tstTokenMime⟩ else none,
   fun _ => none, id, id⟩

/-- An archive containing two signature entry points — `META-INF/timestamp.tst`
and a `META-INF/ASiCArchiveManifest.xml` chain — plus one data file. -/
def zC : Zip := ⟨[⟨"mimetype", "application/vnd.etsi.asic-s+zip"⟩,
  ⟨"META-INF/timestamp.tst", "T0"⟩,
  ⟨"META-INF/ASiCArchiveManifest.xml", "MANIFEST"⟩,
  ⟨"META-INF/timestamp001.tst", "T1"⟩,
  ⟨"doc.txt", "hello"⟩]⟩

/-- The container state produced by loading `zC`: two signatures. -/
def resC : ContainerState := ⟨[⟨"doc.txt", "application/octet-stream", "hello"⟩],
  [.tstSimple "T0", .tstManifest "META-INF/ASiCArchiveManifest.xml" "T1"],
  [⟨"META-INF/timestamp.tst", tstTokenMime, "T0", false⟩,
   ⟨"META-INF/ASiCArchiveManifest.xml", "text/xml", "MANIFEST", false⟩,
   ⟨"META-INF/timestamp001.tst", tstTokenMime, "T1", false⟩]⟩

/-- A container state holding one data file, one timestamp-token signature and
a Metadata Store with the simple token and a head archive manifest. -/
def stS : ContainerState := ⟨[⟨"doc.txt", "text/plain", "hello"⟩], [.tstSimple "T0"],
  [⟨"META-INF/timestamp.tst", tstTokenMime, "T0", false⟩,
   ⟨"META-INF/ASiCArchiveManifest.xml", "text/xml", "M0", false⟩]⟩

/-- A Metadata Store occupying timestamp names 001 through 005. -/
def mdW : List Data :=
  [⟨"META-INF/timestamp001.tst", tstTokenMime, "a", false⟩,
   ⟨"META-INF/timestamp002.tst", tstTokenMime, "b", false⟩,
   ⟨"META-INF/timestamp003.tst", tstTokenMime, "c", false⟩,
   ⟨"META-INF/timestamp004.tst", tstTokenMime, "d", false⟩,
   ⟨"META-INF/timestamp005.tst", tstTokenMime, "e", false⟩]

theorem valStep_digitChar (a n : Nat) (h : n < 10) : valStep a (digitChar n) = 10 * a + n := by
  interval_cases n <;> rfl

theorem decDigitsAux_foldl (fuel : Nat) : ∀ n, n ≤ fuel + 9 → ∀ a,
    (decDigitsAux fuel n).foldl valStep a = a * 10 ^ (decDigitsAux fuel n).length + n := by
  induction fuel with
  | zero =>
    intro n hn a
    have hmod : n % 10 = n := Nat.mod_eq_of_lt (by omega)
    simp [decDigitsAux, hmod, valStep_digitChar a n (by omega)]
    ring
  | succ fuel ih =>
    intro n hn a
    by_cases h : n < 10
    · simp [decDigitsAux, h, valStep_digitChar a n h]
      ring
    · have hd : n / 10 ≤ fuel + 9 := by
        have h1 : n / 10 ≤ (fuel + 1 + 9) / 10 := Nat.div_le_div_right hn
        have h2 : (fuel + 1 + 9) / 10 ≤ fuel + 1 := by
          have := Nat.div_le_div_right (c := 10) (Nat.le_refl (fuel + 10))
          calc (fuel + 1 + 9) / 10 = (fuel + 10) / 10 := by ring_nf
            _ ≤ fuel / 10 + 1 := by
                rw [Nat.add_div_right _ (by omega)]
            _ ≤ fuel + 1 := by
                have := Nat.div_le_self fuel 10
                omega
        omega
      have hrec := ih (n / 10) hd a
      simp only [decDigitsAux, if_neg h]
      rw [List.foldl_append, hrec]
      simp [valStep_digitChar _ (n % 10) (Nat.mod_lt n (by omega)), List.length_append]
      rw [Nat.pow_succ]
      have := Nat.div_add_mod n 10
      ring_nf
      omega

theorem valOf_decDigits (n : Nat) : valOf (decDigits n) = n := by
  have := decDigitsAux_foldl n n (by omega) 0
  simpa [valOf, decDigits] using this

theorem valOf_pad3Chars (n : Nat) : valOf (pad3Chars n) = n := by
  have hz : ∀ l : List Char, List.foldl valStep 0 (('0' :: l)) = List.foldl valStep 0 l := by
    intro l
    simp [List.foldl_cons, valStep]
  unfold pad3Chars valOf
  split
  · rw [List.cons_append, List.cons_append, List.nil_append, hz, hz]
    exact valOf_decDigits n
  · split
    · rw [List.cons_append, List.nil_append, hz]
      exact valOf_decDigits n
    · rw [List.nil_append]
      exact valOf_decDigits n

theorem pad3Chars_injective : Function.Injective pad3Chars := by
  intro a b h
  have := valOf_pad3Chars a
  rw [h, valOf_pad3Chars] at this
  omega

theorem pad3_data (n : Nat) : (pad3 n).data = pad3Chars n := rfl

theorem string_data_append (s t : String) : (s ++ t).data = s.data ++ t.data := by
  cases s; cases t; rfl

theorem string_ext {s t : String} (h : s.data = t.data) : s = t :=
  congrArg String.mk h

theorem tstFmt_injective : Function.Injective tstFmt := by
  intro a b h
  have hd : ("META-INF/timestamp".data ++ pad3Chars a) ++ ".tst".data
      = ("META-INF/timestamp".data ++ pad3Chars b) ++ ".tst".data := by
    have := congrArg String.data h
    simpa [tstFmt, string_data_append, pad3_data] using this
  have h1 := List.append_cancel_right hd
  have h2 := List.append_cancel_left h1
  exact pad3Chars_injective h2

theorem mfsFmt_injective : Function.Injective mfsFmt := by
  intro a b h
  have hd : ("META-INF/ASiCArchiveManifest".data ++ pad3Chars a) ++ ".xml".data
      = ("META-INF/ASiCArchiveManifest".data ++ pad3Chars b) ++ ".xml".data := by
    have := congrArg String.data h
    simpa [mfsFmt, string_data_append, pad3_data] using this
  have h1 := List.append_cancel_right hd
  have h2 := List.append_cancel_left h1
  exact pad3Chars_injective h2

theorem decDigitsAux_ne_nil (fuel n : Nat) : decDigitsAux fuel n ≠ [] := by
  cases fuel with
  | zero => simp [decDigitsAux]
  | succ fuel =>
    simp only [decDigitsAux]
    split
    · simp
    · simp

theorem pad3Chars_length_pos (n : Nat) : 1 ≤ (pad3Chars n).length := by
  unfold pad3Chars
  have := decDigitsAux_ne_nil n n
  have hlen : 1 ≤ (decDigits n).length :=
    Nat.one_le_iff_ne_zero.mpr (by simpa [decDigits, List.length_eq_zero] using this)
  simp only [List.length_append]
  omega

theorem take10_of_append (p rest : List Char) (hp : 10 ≤ p.length) :
    (p ++ rest).take 10 = p.take 10 := by
  rw [List.take_append_eq_append_take]
  have : 10 - p.length = 0 := by omega
  simp [this]

theorem tstFmt_ne_mfsFmt (a b : Nat) : tstFmt a ≠ mfsFmt b := by
  intro h
  have hd := congrArg (fun s => s.data.take 10) h
  simp only [tstFmt, mfsFmt, string_data_append, pad3_data, List.append_assoc] at hd
  rw [take10_of_append "META-INF/timestamp".data _ (by decide),
      take10_of_append "META-INF/ASiCArchiveManifest".data _ (by decide)] at hd
  exact absurd hd (by decide)

theorem tstFmt_ne_head (a : Nat) : tstFmt a ≠ headManifestName := by
  intro h
  have hd := congrArg (fun s => s.data.take 10) h
  simp only [tstFmt, headManifestName, string_data_append, pad3_data, List.append_assoc] at hd
  rw [take10_of_append "META-INF/timestamp".data _ (by decide)] at hd
  exact absurd hd (by decide)

theorem mfsFmt_ne_head (a : Nat) : mfsFmt a ≠ headManifestName := by
  intro h
  have hd := congrArg (fun s => s.data.length) h
  simp only [mfsFmt, headManifestName, string_data_append, pad3_data,
    List.length_append, List.length_cons, List.length_nil] at hd
  have := pad3Chars_length_pos a
  omega

theorem tstFmt_ne_simpleTst (a : Nat) : tstFmt a ≠ "META-INF/timestamp.tst" := by
  intro h
  have hd := congrArg (fun s => s.data.length) h
  simp only [tstFmt, string_data_append, pad3_data, List.length_append,
    List.length_cons, List.length_nil] at hd
  have := pad3Chars_length_pos a
  omega

theorem probeName_isFirstUnused (md : List Data) (fmt : Nat → String) :
    ∀ fuel start, (∃ k, start ≤ k ∧ k < start + fuel ∧ taken md (fmt k) = false) →
    IsFirstUnused md fmt start (probeName md fmt start fuel) := by
  intro fuel
  induction fuel with
  | zero =>
    intro start ⟨k, h1, h2, _⟩
    omega
  | succ fuel ih =>
    intro start ⟨k, h1, h2, h3⟩
    by_cases h : taken md (fmt start)
    · have hk : start + 1 ≤ k := by
        rcases Nat.lt_or_ge start k with hlt | hge
        · omega
        · have : k = start := by omega
          rw [this] at h3
          rw [h3] at h
          exact absurd h (by simp)
      have hrec := ih (start + 1) ⟨k, hk, by omega, h3⟩
      rw [probeName, if_pos h]
      obtain ⟨m, hm1, hm2, hm3, hm4⟩ := hrec
      refine ⟨m, by omega, hm2, ?_, hm4⟩
      intro j hj1 hj2
      rcases Nat.eq_or_lt_of_le hj1 with he | hl
      · rw [← he]; exact h
      · exact hm3 j hl hj2
    · rw [probeName, if_neg h]
      exact ⟨start, Nat.le_refl _, by simpa using h, by omega, rfl⟩

theorem exists_unused (md : List Data) (fmt : Nat → String)
    (hinj : Function.Injective fmt) (start : Nat) :
    ∃ k, start ≤ k ∧ k < start + (md.length + 1) ∧ taken md (fmt k) = false := by
  by_contra hcon
  push_neg at hcon
  have hall : ∀ k, start ≤ k → k < start + (md.length + 1) → taken md (fmt k) = true := by
    intro k h1 h2
    have := hcon k h1 h2
    cases htk : taken md (fmt k)
    · exact absurd htk this
    · rfl
  set names : List String := (List.range (md.length + 1)).map (fun j => fmt (start + j)) with hnames
  have hnodup : names.Nodup := by
    refine List.Nodup.map ?_ (List.nodup_range _)
    intro a b hab
    have := hinj hab
    omega
  have hsub : names ⊆ md.map (·.name) := by
    intro x hx
    rw [hnames, List.mem_map] at hx
    obtain ⟨j, hj, hfx⟩ := hx
    rw [List.mem_range] at hj
    have htk := hall (start + j) (by omega) (by omega)
    rw [taken, List.any_eq_true] at htk
    obtain ⟨e, he, hbe⟩ := htk
    rw [beq_iff_eq] at hbe
    rw [List.mem_map]
    exact ⟨e, he, by rw [hbe, hfx]⟩
  have hlen := (hnodup.subperm hsub).length_le
  simp [hnames] at hlen

theorem nextTstName_isFirstUnused (md : List Data) :
    IsFirstUnused md tstFmt 1 (nextTstName md) :=
  probeName_isFirstUnused md tstFmt (md.length + 1) 1
    (exists_unused md tstFmt tstFmt_injective 1)

theorem nextMfsName_isFirstUnused (md : List Data) :
    IsFirstUnused md mfsFmt 1 (nextMfsName md) :=
  probeName_isFirstUnused md mfsFmt (md.length + 1) 1
    (exists_unused md mfsFmt mfsFmt_injective 1)

theorem taken_false_not_mem (md : List Data) (n : String) (h : taken md n = false) :
    ∀ e ∈ md, e.name ≠ n := by
  intro e he
  rw [taken, List.any_eq_false] at h
  have := h e he
  simpa using this

theorem renameAndCollect_no_head (ext : Externals) :
    ∀ (md processed : List Data) (refs : List Ref),
    (∀ d ∈ md, d.name ≠ headManifestName) →
    (renameAndCollect ext processed md refs).1 = processed ++ md := by
  intro md
  induction md with
  | nil => intro processed refs _; simp [renameAndCollect]
  | cons d rest ih =>
    intro processed refs h
    have hd : d.name ≠ headManifestName := h d (List.mem_cons_self d rest)
    rw [renameAndCollect, if_neg hd]
    rw [ih (processed ++ [d]) _ (fun x hx => h x (List.mem_cons_of_mem d hx))]
    simp

theorem renameAndCollect_single_head (ext : Externals) :
    ∀ (pre processed : List Data) (refs : List Ref) (hd : Data) (post : List Data),
    hd.name = headManifestName →
    (∀ d ∈ pre, d.name ≠ headManifestName) →
    (∀ d ∈ post, d.name ≠ headManifestName) →
    (renameAndCollect ext processed (pre ++ hd :: post) refs).1 =
      processed ++ pre ++
        ⟨probeName (processed ++ pre ++ hd :: post) mfsFmt 1
            ((processed ++ pre ++ hd :: post).length + 1), hd.mime, hd.data, true⟩ :: post := by
  intro pre
  induction pre with
  | nil =>
    intro processed refs hd post hhd _ hpost
    rw [List.nil_append, renameAndCollect, if_pos hhd]
    rw [renameAndCollect_no_head ext post _ _ hpost]
    simp
  | cons p pre ih =>
    intro processed refs hd post hhd hpre hpost
    have hp : p.name ≠ headManifestName := hpre p (List.mem_cons_self p pre)
    rw [List.cons_append, renameAndCollect, if_neg hp]
    rw [ih (processed ++ [p]) _ hd post hhd (fun x hx => hpre x (List.mem_cons_of_mem p hx)) hpost]
    simp

theorem renameAndCollect_next (ext : Externals) (md pre post : List Data) (hd : Data)
    (hmd : md = pre ++ hd :: post)
    (hhd : hd.name = headManifestName)
    (hpre : ∀ d ∈ pre, d.name ≠ headManifestName)
    (hpost : ∀ d ∈ post, d.name ≠ headManifestName) :
    (renameAndCollect ext [] md []).1 =
      pre ++ ⟨nextMfsName md, hd.mime, hd.data, true⟩ :: post := by
  subst hmd
  have h := renameAndCollect_single_head ext pre [] [] hd post hhd hpre hpost
  simp only [List.nil_append] at h
  rw [h]
  rfl

theorem goRefs_dataFiles (ext : Externals)
    (f : String → String → ContainerState → Except Err ContainerState)
    (hf : ∀ u m s s', f u m s = .ok s' → s'.dataFiles = s.dataFiles) :
    ∀ refs st st', goRefs ext f refs st = .ok st' → st'.dataFiles = st.dataFiles := by
  intro refs
  induction refs with
  | nil => intro st st' h; cases h; rfl
  | cons r rs ih =>
    intro st st' h
    rw [goRefs] at h
    by_cases hr : r.rootfile
    · rw [if_pos hr] at h
      cases hfe : f (ext.fromUriPath r.uri) r.mimeType st with
      | error e => rw [hfe] at h; cases h
      | ok s1 =>
        rw [hfe] at h
        rw [ih s1 st' h, hf _ _ _ _ hfe]
    · rw [if_neg hr] at h
      exact ih st st' h

theorem addManifest_dataFiles (ext : Externals) (z : Zip) :
    ∀ fuel file mime st st', addManifest ext z fuel file mime st = .ok st' →
      st'.dataFiles = st.dataFiles := by
  intro fuel
  induction fuel with
  | zero => intro file mime st st' h; cases h
  | succ fuel ih =>
    intro file mime st st' h
    simp only [addManifest] at h
    cases he : z.extract file with
    | none => simp only [he] at h; cases h
    | some xml =>
      simp only [he] at h
      cases hp : ext.parseManifest xml with
      | none => simp only [hp] at h; cases h
      | some doc =>
        simp only [hp] at h
        cases hg : goRefs ext (addManifest ext z fuel) doc.refs st with
        | error e => simp only [hg] at h; cases h
        | ok st1 =>
          simp only [hg] at h
          cases ht : z.extract (ext.fromUriPath doc.sigURI) with
          | none => simp only [ht] at h; cases h
          | some tst =>
            simp only [ht] at h
            cases h
            exact goRefs_dataFiles ext _ (fun u m s s' hh => ih u m s s' hh) doc.refs st st1 hg

theorem goRefs_ne_dup (ext : Externals)
    (f : String → String → ContainerState → Except Err ContainerState)
    (hf : ∀ u m s, f u m s ≠ .error .duplicateSignatureEntryPoint) :
    ∀ refs st, goRefs ext f refs st ≠ .error .duplicateSignatureEntryPoint := by
  intro refs
  induction refs with
  | nil => intro st h; cases h
  | cons r rs ih =>
    intro st h
    rw [goRefs] at h
    by_cases hr : r.rootfile
    · rw [if_pos hr] at h
      cases hfe : f (ext.fromUriPath r.uri) r.mimeType st with
      | error e =>
        rw [hfe] at h
        cases h
        exact hf _ _ _ hfe
      | ok s1 => rw [hfe] at h; exact ih s1 h
    · rw [if_neg hr] at h
      exact ih st h

theorem addManifest_ne_dup (ext : Externals) (z : Zip) :
    ∀ fuel file mime st, addManifest ext z fuel file mime st ≠
      .error .duplicateSignatureEntryPoint := by
  intro fuel
  induction fuel with
  | zero => intro file mime st h; cases h
  | succ fuel ih =>
    intro file mime st h
    simp only [addManifest] at h
    cases he : z.extract file with
    | none => simp only [he] at h; cases h
    | some xml =>
      simp only [he] at h
      cases hp : ext.parseManifest xml with
      | none => simp only [hp] at h; cases h
      | some doc =>
        simp only [hp] at h
        cases hg : goRefs ext (addManifest ext z fuel) doc.refs st with
        | error e =>
          simp only [hg] at h
          cases h
          exact goRefs_ne_dup ext _ (fun u m s => ih u m s) doc.refs st hg
        | ok st1 =>
          simp only [hg] at h
          cases ht : z.extract (ext.fromUriPath doc.sigURI) with
          | none => simp only [ht] at h; cases h
          | some tst => simp only [ht] at h; cases h

theorem goRefs_root (ext : Externals)
    (f : String → String → ContainerState → Except Err ContainerState)
    (hf : ∀ u m s s', f u m s = .ok s' → (∀ d ∈ s.metadata, d.root = false) →
      ∀ d ∈ s'.metadata, d.root = false) :
    ∀ refs st st', goRefs ext f refs st = .ok st' →
      (∀ d ∈ st.metadata, d.root = false) → ∀ d ∈ st'.metadata, d.root = false := by
  intro refs
  induction refs with
  | nil => intro st st' h hr; cases h; exact hr
  | cons r rs ih =>
    intro st st' h hr
    rw [goRefs] at h
    by_cases hb : r.rootfile
    · rw [if_pos hb] at h
      cases hfe : f (ext.fromUriPath r.uri) r.mimeType st with
      | error e => rw [hfe] at h; cases h
      | ok s1 =>
        rw [hfe] at h
        exact ih s1 st' h (hf _ _ _ _ hfe hr)
    · rw [if_neg hb] at h
      exact ih st st' h hr

theorem addManifest_root (ext : Externals) (z : Zip) :
    ∀ fuel file mime st st', addManifest ext z fuel file mime st = .ok st' →
      (∀ d ∈ st.metadata, d.root = false) → ∀ d ∈ st'.metadata, d.root = false := by
  intro fuel
  induction fuel with
  | zero => intro file mime st st' h; cases h
  | succ fuel ih =>
    intro file mime st st' h hr
    simp only [addManifest] at h
    cases he : z.extract file with
    | none => simp only [he] at h; cases h
    | some xml =>
      simp only [he] at h
      cases hp : ext.parseManifest xml with
      | none => simp only [hp] at h; cases h
      | some doc =>
        simp only [hp] at h
        cases hg : goRefs ext (addManifest ext z fuel) doc.refs st with
        | error e => simp only [hg] at h; cases h
        | ok st1 =>
          simp only [hg] at h
          cases ht : z.extract (ext.fromUriPath doc.sigURI) with
          | none => simp only [ht] at h; cases h
          | some tst =>
            simp only [ht] at h
            cases h
            have h1 := goRefs_root ext _ (fun u m s s' hh => ih u m s s' hh) doc.refs st st1 hg hr
            intro d hd
            simp only [List.mem_append, List.mem_cons, List.not_mem_nil, or_false] at hd
            rcases hd with hd | hd | hd
            · exact h1 d hd
            · rw [hd]
            · rw [hd]

theorem processEntry_cases (ext : Externals) (z : Zip) (st : ContainerState)
    (file : String) (st' : ContainerState) (h : processEntry ext z st file = .ok st') :
    st' = st ∨
    (∃ tst, st' = { st with
        signatures := st.signatures ++ [.tstSimple tst],
        metadata := st.metadata ++ [⟨file, tstTokenMime, tst, false⟩] }) ∨
    (∃ n, st' = { st with signatures := st.signatures ++ List.replicate n .xades }) ∨
    addManifest ext z (z.entries.length + 1) file "text/xml" st = .ok st' ∨
    (∃ content, st.dataFiles = [] ∧
      st' = { st with dataFiles := st.dataFiles ++ [⟨file, "application/octet-stream", content⟩] }) := by
  simp only [processEntry] at h
  by_cases h1 : file = "mimetype"
  · rw [if_pos h1] at h; cases h; left; rfl
  · rw [if_neg h1] at h
    by_cases h2 : file = "META-INF/timestamp.tst"
    · rw [if_pos h2] at h
      by_cases hs : st.signatures ≠ []
      · rw [if_pos hs] at h; cases h
      · rw [if_neg hs] at h
        cases he : z.extract file with
        | none => simp only [he] at h; cases h
        | some tst =>
          simp only [he] at h
          cases h
          exact Or.inr (Or.inl ⟨tst, rfl⟩)
    · rw [if_neg h2] at h
      by_cases h3 : file = "META-INF/signatures.xml"
      · rw [if_pos h3] at h
        by_cases hs : st.signatures ≠ []
        · rw [if_pos hs] at h; cases h
        · rw [if_neg hs] at h
          cases he : z.extract file with
          | none => simp only [he] at h; cases h
          | some xml =>
            simp only [he] at h
            cases hc : ext.parseSignaturesCount xml with
            | none => simp only [hc] at h; cases h
            | some n =>
              simp only [hc] at h
              cases h
              exact Or.inr (Or.inr (Or.inl ⟨n, rfl⟩))
      · rw [if_neg h3] at h
        by_cases h4 : file = "META-INF/ASiCArchiveManifest.xml"
        · rw [if_pos h4] at h
          exact Or.inr (Or.inr (Or.inr (Or.inl h)))
        · rw [if_neg h4] at h
          by_cases h5 : startsWith file "META-INF/" = true
          · rw [if_pos h5] at h; cases h; left; rfl
          · rw [if_neg h5] at h
            by_cases h6 : isSubdirPath file = true
            · rw [if_pos h6] at h; cases h
            · rw [if_neg h6] at h
              by_cases h7 : st.dataFiles ≠ []
              · rw [if_pos h7] at h; cases h
              · rw [if_neg h7] at h
                cases he : z.extract file with
                | none => simp only [he] at h; cases h
                | some content =>
                  simp only [he] at h
                  cases h
                  refine Or.inr (Or.inr (Or.inr (Or.inr ⟨content, ?_, rfl⟩)))
                  by_contra hc
                  exact h7 hc

theorem processEntry_dataFiles (ext : Externals) (z : Zip) (st : ContainerState)
    (file : String) (st' : ContainerState) (h : processEntry ext z st file = .ok st') :
    st'.dataFiles = st.dataFiles ∨ (st.dataFiles = [] ∧ st'.dataFiles.length = 1) := by
  rcases processEntry_cases ext z st file st' h with h | ⟨t, h⟩ | ⟨n, h⟩ | h | ⟨c, he, h⟩
  · left; rw [h]
  · left; rw [h]
  · left; rw [h]
  · left; exact addManifest_dataFiles ext z _ _ _ st st' h
  · right
    refine ⟨he, ?_⟩
    rw [h]
    simp [he]

theorem processEntry_root (ext : Externals) (z : Zip) (st : ContainerState)
    (file : String) (st' : ContainerState) (h : processEntry ext z st file = .ok st')
    (hr : ∀ d ∈ st.metadata, d.root = false) :
    ∀ d ∈ st'.metadata, d.root = false := by
  rcases processEntry_cases ext z st file st' h with h | ⟨t, h⟩ | ⟨n, h⟩ | h | ⟨c, he, h⟩
  · rw [h]; exact hr
  · rw [h]
    intro d hd
    simp only [List.mem_append, List.mem_cons, List.not_mem_nil, or_false] at hd
    rcases hd with hd | hd
    · exact hr d hd
    · rw [hd]
  · rw [h]; exact hr
  · exact addManifest_root ext z _ _ _ st st' h hr
  · rw [h]; exact hr

theorem processEntries_dataFiles (ext : Externals) (z : Zip) :
    ∀ (files : List String) (st st' : ContainerState),
    processEntries ext z files st = .ok st' → st.dataFiles.length ≤ 1 →
    st'.dataFiles.length ≤ 1 := by
  intro files
  induction files with
  | nil => intro st st' h hle; cases h; exact hle
  | cons f fs ih =>
    intro st st' h hle
    rw [processEntries] at h
    cases he : processEntry ext z st f with
    | error e => rw [he] at h; cases h
    | ok st1 =>
      rw [he] at h
      refine ih st1 st' h ?_
      rcases processEntry_dataFiles ext z st f st1 he with h1 | ⟨_, h2⟩
      · rw [h1]; exact hle
      · omega

theorem processEntries_root (ext : Externals) (z : Zip) :
    ∀ (files : List String) (st st' : ContainerState),
    processEntries ext z files st = .ok st' → (∀ d ∈ st.metadata, d.root = false) →
    ∀ d ∈ st'.metadata, d.root = false := by
  intro files
  induction files with
  | nil => intro st st' h hr; cases h; exact hr
  | cons f fs ih =>
    intro st st' h hr
    rw [processEntries] at h
    cases he : processEntry ext z st f with
    | error e => rw [he] at h; cases h
    | ok st1 =>
      rw [he] at h
      exact ih st1 st' h (processEntry_root ext z st f st1 he hr)

theorem load_ok_props (ext : Externals) (z : Zip) (st : ContainerState)
    (h : load ext z = .ok st) :
    st.dataFiles.length = 1 ∧ st.signatures ≠ [] ∧ ∀ d ∈ st.metadata, d.root = false := by
  rw [load] at h
  cases hp : processEntries ext z z.list emptyState with
  | error e => simp only [hp] at h; cases h
  | ok st0 =>
    simp only [hp] at h
    by_cases h1 : st0.dataFiles = []
    · rw [if_pos h1] at h; cases h
    · rw [if_neg h1] at h
      by_cases h2 : st0.signatures = []
      · rw [if_pos h2] at h; cases h
      · rw [if_neg h2] at h
        cases h
        have hle := processEntries_dataFiles ext z z.list emptyState _ hp (by simp [emptyState])
        have hne : st.dataFiles.length ≠ 0 := by
          simpa [List.length_eq_zero] using h1
        refine ⟨by omega, h2, ?_⟩
        exact processEntries_root ext z z.list emptyState _ hp (by simp [emptyState])

/-- C1 (counterexample): the claim says every archive with more than one
signature entry point fails to load with `DuplicateSignatureEntryPoint`; but
`zC`, which contains both `META-INF/timestamp.tst` and a
`META-INF/ASiCArchiveManifest.xml` chain, loads successfully. -/
theorem C1_counterexample :
    ("META-INF/timestamp.tst" ∈ zC.list ∧ "META-INF/ASiCArchiveManifest.xml" ∈ zC.list) ∧
    load extC zC = .ok resC :=
  ⟨by decide, rfl⟩

/-- C1 (amended): the duplicate-entry-point check guards the
`META-INF/timestamp.tst` and `META-INF/signatures.xml` branches of the loader,
which fail with `DuplicateSignatureEntryPoint` whenever the Signature Chain is
already non-empty; the `META-INF/ASiCArchiveManifest.xml` branch performs no
such check and never produces that failure. -/
theorem C1_entry_point_checks (ext : Externals) (z : Zip) (st : ContainerState) :
    (st.signatures ≠ [] →
      processEntry ext z st "META-INF/timestamp.tst" = .error .duplicateSignatureEntryPoint) ∧
    (st.signatures ≠ [] →
      processEntry ext z st "META-INF/signatures.xml" = .error .duplicateSignatureEntryPoint) ∧
    processEntry ext z st "META-INF/ASiCArchiveManifest.xml" ≠
      .error .duplicateSignatureEntryPoint := by
  refine ⟨?_, ?_, ?_⟩
  · intro h
    simp [processEntry, h]
  · intro h
    simp [processEntry, h]
  · intro hcon
    rw [processEntry] at hcon
    simp only [reduceIte] at hcon
    exact addManifest_ne_dup ext z (z.entries.length + 1)
      "META-INF/ASiCArchiveManifest.xml" "text/xml" st hcon

/-- C1 (witness for the amended claim), at the concrete state `stS` whose
Signature Chain is non-empty. -/
theorem C1_witness :
    processEntry extT zT stS "META-INF/timestamp.tst" = .error .duplicateSignatureEntryPoint ∧
    processEntry extT zT stS "META-INF/signatures.xml" = .error .duplicateSignatureEntryPoint ∧
    processEntry extT zT stS "META-INF/ASiCArchiveManifest.xml" ≠
      .error .duplicateSignatureEntryPoint :=
  ⟨(C1_entry_point_checks extT zT stS).1 (by decide),
   (C1_entry_point_checks extT zT stS).2.1 (by decide),
   (C1_entry_point_checks extT zT stS).2.2⟩

/-- C4: loading succeeds only with exactly one DataFile and a non-empty
Signature Chain; an entry-processing run ending with no data file makes the
load fail with `MissingDataObject`, and one ending with a data file but no
signature makes it fail with `MissingSignature`. -/
theorem C4_load_gate (ext : Externals) (z : Zip) :
    (∀ st, load ext z = .ok st → st.dataFiles.length = 1 ∧ st.signatures ≠ []) ∧
    (∀ st, processEntries ext z z.list emptyState = .ok st → st.dataFiles = [] →
      load ext z = .error .missingDataObject) ∧
    (∀ st, processEntries ext z z.list emptyState = .ok st → st.dataFiles ≠ [] →
      st.signatures = [] → load ext z = .error .missingSignature) := by
  refine ⟨?_, ?_, ?_⟩
  · intro st h
    have hp := load_ok_props ext z st h
    exact ⟨hp.1, hp.2.1⟩
  · intro st h hd
    rw [load]
    simp only [h]
    rw [if_pos hd]
  · intro st h hd hs
    rw [load]
    simp only [h]
    rw [if_neg hd, if_pos hs]

/-- C4 (witness), at the concrete archive `zT`. -/
theorem C4_witness : resT.dataFiles.length = 1 ∧ resT.signatures ≠ [] :=
  (C4_load_gate extT zT).1 resT rfl

/-- C6: signing with any profile other than the timestamp-token profile fails
with `UnsupportedProfile` and leaves the container state (Signature Chain and
Metadata Store) exactly as before the call. -/
theorem C6_sign_profile_gate (ext : Externals) (st : ContainerState)
    (profile newTst : String) (h : profile ≠ ASIC_TST_PROFILE) :
    sign ext st profile newTst = (st, .error .unsupportedProfile) := by
  rw [sign, if_pos h]

/-- C6 (witness), at a concrete non-timestamp-token profile. -/
theorem C6_witness : sign extT stS "BES" "tok" = (stS, .error .unsupportedProfile) :=
  C6_sign_profile_gate extT stS "BES" "tok" (by decide)

/-- C7: `save` writes nothing when the Signature Chain is empty, fails with
`UnsupportedProfile` when the first (oldest) signature is not a
timestamp-token one, and otherwise writes every MetadataEntry verbatim, in
Metadata Store order. -/
theorem C7_save_contract (st : ContainerState) :
    (st.signatures = [] → save st = .ok []) ∧
    (∀ s rest, st.signatures = s :: rest → s.profile ≠ ASIC_TST_PROFILE →
      save st = .error .unsupportedProfile) ∧
    (∀ s rest, st.signatures = s :: rest → s.profile = ASIC_TST_PROFILE →
      save st = .ok (st.metadata.map (fun d => (d.name, d.data)))) := by
  refine ⟨?_, ?_, ?_⟩
  · intro h
    simp only [save, h]
  · intro s rest h hp
    simp only [save, h]
    rw [if_pos hp]
  · intro s rest h hp
    simp only [save, h]
    rw [if_neg (fun hc => hc hp)]

/-- C7 (witness), at the concrete state `stS` whose first signature is a
timestamp token. -/
theorem C7_witness : save stS = .ok (stS.metadata.map (fun d => (d.name, d.data))) :=
  (C7_save_contract stS).2.2 (.tstSimple "T0") [] rfl rfl

/-- C10: after a successful load, every entry of the Metadata Store has its
root flag `false` — the `Rootfile` marking of a saved manifest chain is not
reconstructed in memory. -/
theorem C10_no_root_after_load (ext : Externals) (z : Zip) (st : ContainerState)
    (h : load ext z = .ok st) : ∀ d ∈ st.metadata, d.root = false :=
  (load_ok_props ext z st h).2.2

/-- C10 (witness), at the chained archive `zC`, whose load recurses through
the manifest entry point. -/
theorem C10_witness : resC.metadata.all (fun d => d.root == false) = true := by
  have h := C10_no_root_after_load extC zC resC rfl
  rw [List.all_eq_true]
  intro d hd
  simpa using h d hd

/-- C5: the format detector answers `false` for the extended-format extensions
`asice`/`sce`/`bdoc` and `true` for `asics`/`scs` without probing the archive;
otherwise it answers `true` exactly when the archive opens and its first entry
is named `mimetype` with the ASiC-S media type as content, any probing failure
(`zipProbe = none`) being swallowed into `false`. -/
theorem C5_format_detector (path : String) (zp : Option Zip) :
    (hasExtension path ["asice", "sce", "bdoc"] = true →
      isContainerSimpleFormat path zp = false) ∧
    (hasExtension path ["asice", "sce", "bdoc"] = false →
      hasExtension path ["asics", "scs"] = true →
      isContainerSimpleFormat path zp = true) ∧
    (hasExtension path ["asice", "sce", "bdoc"] = false →
      hasExtension path ["asics", "scs"] = false →
      (zp = none → isContainerSimpleFormat path zp = false) ∧
      (∀ z, zp = some z →
        (isContainerSimpleFormat path zp = true ↔
          z.list.head? = some "mimetype" ∧ z.extract "mimetype" = some MIMETYPE_ASIC_S))) := by
  refine ⟨?_, ?_, ?_⟩
  · intro h1
    simp [isContainerSimpleFormat, h1]
  · intro h1 h2
    simp [isContainerSimpleFormat, h1, h2]
  · intro h1 h2
    refine ⟨?_, ?_⟩
    · intro hz
      simp [isContainerSimpleFormat, h1, h2, hz]
    · intro z hz
      subst hz
      simp only [isContainerSimpleFormat, h1, h2, Bool.false_eq_true, if_false]
      cases hh : z.list.head? with
      | none => simp
      | some first =>
        cases hx : z.extract "mimetype" with
        | none => simp
        | some content =>
          simp [Bool.and_eq_true, beq_iff_eq]

/-- C5 (witness): a `.asics` path is accepted without a probe, and a path of
unknown extension is decided by the `mimetype` probe. -/
theorem C5_witness : isContainerSimpleFormat "archive.asics" none = true ∧
    isContainerSimpleFormat "archive.zip" (some zT) = true :=
  ⟨(C5_format_detector "archive.asics" none).2.1 (by decide) (by decide),
   ((C5_format_detector "archive.zip" (some zT)).2.2 (by decide) (by decide)).2 zT rfl
     |>.mpr ⟨by decide, by decide⟩⟩

/-- C8: during loading, an entry outside `META-INF/` that lies in a
subdirectory fails with `UnsupportedSubfolder`; any other non-`mimetype`
entry outside `META-INF/` fails with `DuplicateDataFile` when a data file is
already set, and otherwise becomes the container's single data file with
media type `application/octet-stream`. -/
theorem C8_datafile_rules (ext : Externals) (z : Zip) (st : ContainerState)
    (file : String) (hmeta : startsWith file "META-INF/" = false) :
    (isSubdirPath file = true →
      processEntry ext z st file = .error .unsupportedSubfolder) ∧
    (isSubdirPath file = false → file ≠ "mimetype" → st.dataFiles ≠ [] →
      processEntry ext z st file = .error .duplicateDataFile) ∧
    (∀ content, isSubdirPath file = false → file ≠ "mimetype" → st.dataFiles = [] →
      z.extract file = some content →
      processEntry ext z st file =
        .ok { st with dataFiles := [⟨file, "application/octet-stream", content⟩] }) := by
  have h2 : file ≠ "META-INF/timestamp.tst" := by
    intro he; rw [he] at hmeta; exact absurd hmeta (by decide)
  have h3 : file ≠ "META-INF/signatures.xml" := by
    intro he; rw [he] at hmeta; exact absurd hmeta (by decide)
  have h4 : file ≠ "META-INF/ASiCArchiveManifest.xml" := by
    intro he; rw [he] at hmeta; exact absurd hmeta (by decide)
  refine ⟨?_, ?_, ?_⟩
  · intro hsub
    have h1 : file ≠ "mimetype" := by
      intro he; rw [he] at hsub; exact absurd hsub (by decide)
    rw [processEntry, if_neg h1, if_neg h2, if_neg h3, if_neg h4,
        if_neg (by simp [hmeta]), if_pos hsub]
  · intro hsub h1 hdf
    rw [processEntry, if_neg h1, if_neg h2, if_neg h3, if_neg h4,
        if_neg (by simp [hmeta]), if_neg (by simp [hsub]), if_pos hdf]
  · intro content hsub h1 hdf hex
    rw [processEntry, if_neg h1, if_neg h2, if_neg h3, if_neg h4,
        if_neg (by simp [hmeta]), if_neg (by simp [hsub]), if_neg (by simp [hdf])]
    simp only [hex]
    rw [hdf]
    simp

/-- C8 (witness): a subfoldered entry is rejected; a top-level entry becomes
the single data file. -/
theorem C8_witness :
    processEntry extT zT emptyState "docs/readme.txt" = .error .unsupportedSubfolder ∧
    processEntry extT zT emptyState "doc.txt" =
      .ok { emptyState with dataFiles := [⟨"doc.txt", "application/octet-stream", "hello"⟩] } :=
  ⟨(C8_datafile_rules extT zT emptyState "docs/readme.txt" (by decide)).1 (by decide),
   (C8_datafile_rules extT zT emptyState "doc.txt" (by decide)).2.2 "hello"
     (by decide) (by decide) rfl rfl⟩

/-- C3: the name probe picks the first unused zero-padded 3-digit name — when
`META-INF/timestamp001.tst` … `005` are present and `006` is absent the probe
chooses `006`; in general both the timestamp probe and the manifest probe
(starting at `001`) return the first unused name of their family. -/
theorem C3_name_probing (md : List Data) :
    (taken md "META-INF/timestamp001.tst" = true →
      taken md "META-INF/timestamp002.tst" = true →
      taken md "META-INF/timestamp003.tst" = true →
      taken md "META-INF/timestamp004.tst" = true →
      taken md "META-INF/timestamp005.tst" = true →
      taken md "META-INF/timestamp006.tst" = false →
      nextTstName md = "META-INF/timestamp006.tst") ∧
    IsFirstUnused md tstFmt 1 (nextTstName md) ∧
    IsFirstUnused md mfsFmt 1 (nextMfsName md) := by
  refine ⟨?_, nextTstName_isFirstUnused md, nextMfsName_isFirstUnused md⟩
  intro h1 h2 h3 h4 h5 h6
  have e1 : tstFmt 1 = "META-INF/timestamp001.tst" := rfl
  have e2 : tstFmt 2 = "META-INF/timestamp002.tst" := rfl
  have e3 : tstFmt 3 = "META-INF/timestamp003.tst" := rfl
  have e4 : tstFmt 4 = "META-INF/timestamp004.tst" := rfl
  have e5 : tstFmt 5 = "META-INF/timestamp005.tst" := rfl
  have e6 : tstFmt 6 = "META-INF/timestamp006.tst" := rfl
  obtain ⟨k, hk1, hk2, hk3, hk4⟩ := nextTstName_isFirstUnused md
  have hk6 : k = 6 := by
    rcases Nat.lt_or_ge k 6 with hlt | hge
    · interval_cases k
      · rw [e1, h1] at hk2; cases hk2
      · rw [e2, h2] at hk2; cases hk2
      · rw [e3, h3] at hk2; cases hk2
      · rw [e4, h4] at hk2; cases hk2
      · rw [e5, h5] at hk2; cases hk2
    · rcases Nat.eq_or_lt_of_le hge with he | hlt
      · omega
      · have := hk3 6 (by omega) hlt
        rw [e6, h6] at this
        cases this
  rw [hk4, hk6, e6]

/-- C3 (witness): with `001` … `005` occupied, the probe picks `006`. -/
theorem C3_witness : nextTstName mdW = "META-INF/timestamp006.tst" :=
  (C3_name_probing mdW).1 (by decide) (by decide) (by decide) (by decide)
    (by decide) (by decide)

/-- C9: the rename pass of `sign` mutates only the name and root flag of the
head-manifest entry: the store's length and order are preserved and the media
type and content of every entry (the renamed one included) are unchanged. -/
theorem C9_rename_frame (ext : Externals) (md pre post : List Data) (hd : Data)
    (hmd : md = pre ++ hd :: post)
    (hhd : hd.name = headManifestName)
    (hpre : ∀ d ∈ pre, d.name ≠ headManifestName)
    (hpost : ∀ d ∈ post, d.name ≠ headManifestName) :
    (renameAndCollect ext [] md []).1 =
      pre ++ ⟨nextMfsName md, hd.mime, hd.data, true⟩ :: post ∧
    (renameAndCollect ext [] md []).1.length = md.length ∧
    (renameAndCollect ext [] md []).1.map (·.mime) = md.map (·.mime) ∧
    (renameAndCollect ext [] md []).1.map (·.data) = md.map (·.data) := by
  subst hmd
  have hmain := renameAndCollect_next ext (pre ++ hd :: post) pre post hd rfl hhd hpre hpost
  refine ⟨hmain, ?_, ?_, ?_⟩
  · rw [hmain]
    simp
  · rw [hmain]
    simp
  · rw [hmain]
    simp

/-- C9 (witness), at the concrete store of `stS`. -/
theorem C9_witness :
    (renameAndCollect extT [] stS.metadata []).1 =
      [⟨"META-INF/timestamp.tst", tstTokenMime, "T0", false⟩] ++
        ⟨nextMfsName stS.metadata, "text/xml", "M0", true⟩ :: [] :=
  (C9_rename_frame extT stS.metadata
    [⟨"META-INF/timestamp.tst", tstTokenMime, "T0", false⟩] []
    ⟨"META-INF/ASiCArchiveManifest.xml", "text/xml", "M0", false⟩
    rfl rfl (by decide) (by decide)).1

theorem sign_chainB (ext : Externals) (st : ContainerState) (newTst : String)
    (hsig : st.signatures ≠ []) :
    sign ext st ASIC_TST_PROFILE newTst =
      ({ st with
          metadata := ((renameAndCollect ext [] st.metadata []).1
              ++ [⟨headManifestName, "text/xml",
                    serializeManifest ⟨refOf ext (st.dataFiles.headD ⟨"", "", ""⟩).fileName
                        (st.dataFiles.headD ⟨"", "", ""⟩).mediaType false
                        (st.dataFiles.headD ⟨"", "", ""⟩).content
                      :: (renameAndCollect ext [] st.metadata []).2,
                      nextTstName st.metadata, tstTokenMime⟩, false⟩])
            ++ [⟨nextTstName st.metadata, tstTokenMime, newTst, false⟩],
          signatures := st.signatures ++ [.tstManifest headManifestName newTst] },
        .ok (.tstManifest headManifestName newTst)) := by
  rw [sign, if_neg (by simp), if_neg hsig]

/-- C2: on a container with a non-empty Signature Chain, a successful
timestamp-token `sign` leaves exactly one entry named
`META-INF/ASiCArchiveManifest.xml` (the freshly built head manifest), appends
exactly one new `META-INF/timestampNNN.tst` entry (its name fresh and the
first unused of its family), and renames the previous head manifest to the
first unused `META-INF/ASiCArchiveManifestNNN.xml` name (`001` when none
exist) with its root flag set. -/
theorem C2_sign_chain_growth (ext : Externals) (st : ContainerState)
    (pre post : List Data) (hd : Data) (newTst : String)
    (hsig : st.signatures ≠ [])
    (hmd : st.metadata = pre ++ hd :: post)
    (hhd : hd.name = headManifestName)
    (hpre : ∀ d ∈ pre, d.name ≠ headManifestName)
    (hpost : ∀ d ∈ post, d.name ≠ headManifestName) :
    ((sign ext st ASIC_TST_PROFILE newTst).1.metadata.countP
        (fun d => d.name == headManifestName) = 1) ∧
    (∃ mContent,
      (sign ext st ASIC_TST_PROFILE newTst).1.metadata =
        (pre ++ ⟨nextMfsName st.metadata, hd.mime, hd.data, true⟩ :: post)
          ++ [⟨headManifestName, "text/xml", mContent, false⟩]
          ++ [⟨nextTstName st.metadata, tstTokenMime, newTst, false⟩]) ∧
    taken st.metadata (nextTstName st.metadata) = false ∧
    IsFirstUnused st.metadata tstFmt 1 (nextTstName st.metadata) ∧
    ((sign ext st ASIC_TST_PROFILE newTst).1.metadata.countP
        (fun d => d.name == nextTstName st.metadata) = 1) ∧
    IsFirstUnused st.metadata mfsFmt 1 (nextMfsName st.metadata) ∧
    (taken st.metadata "META-INF/ASiCArchiveManifest001.xml" = false →
      nextMfsName st.metadata = "META-INF/ASiCArchiveManifest001.xml") ∧
    (sign ext st ASIC_TST_PROFILE newTst).2 = .ok (.tstManifest headManifestName newTst) := by
  obtain ⟨kT, hkT1, hkT2, hkT3, hkT4⟩ := nextTstName_isFirstUnused st.metadata
  obtain ⟨kM, hkM1, hkM2, hkM3, hkM4⟩ := nextMfsName_isFirstUnused st.metadata
  have hSign := sign_chainB ext st newTst hsig
  have hR := renameAndCollect_next ext st.metadata pre post hd hmd hhd hpre hpost
  have hmeta : (sign ext st ASIC_TST_PROFILE newTst).1.metadata =
      (pre ++ ⟨nextMfsName st.metadata, hd.mime, hd.data, true⟩ :: post)
        ++ [⟨headManifestName, "text/xml",
              serializeManifest ⟨refOf ext (st.dataFiles.headD ⟨"", "", ""⟩).fileName
                  (st.dataFiles.headD ⟨"", "", ""⟩).mediaType false
                  (st.dataFiles.headD ⟨"", "", ""⟩).content
                :: (renameAndCollect ext [] st.metadata []).2,
                nextTstName st.metadata, tstTokenMime⟩, false⟩]
        ++ [⟨nextTstName st.metadata, tstTokenMime, newTst, false⟩] := by
    rw [hSign, ← hR]
  have hM_ne_head : nextMfsName st.metadata ≠ headManifestName := by
    rw [hkM4]; exact mfsFmt_ne_head kM
  have hT_ne_head : nextTstName st.metadata ≠ headManifestName := by
    rw [hkT4]; exact tstFmt_ne_head kT
  have hM_ne_T : nextMfsName st.metadata ≠ nextTstName st.metadata := by
    rw [hkM4, hkT4]; exact (tstFmt_ne_mfsFmt kT kM).symm
  have hfresh : taken st.metadata (nextTstName st.metadata) = false := by
    rw [hkT4]; exact hkT2
  have hnotmem := taken_false_not_mem st.metadata (nextTstName st.metadata) hfresh
  have cpre : pre.countP (fun d => d.name == headManifestName) = 0 :=
    List.countP_eq_zero.mpr (fun d hdm => by simp [hpre d hdm])
  have cpost : post.countP (fun d => d.name == headManifestName) = 0 :=
    List.countP_eq_zero.mpr (fun d hdm => by simp [hpost d hdm])
  have cpreT : pre.countP (fun d => d.name == nextTstName st.metadata) = 0 :=
    List.countP_eq_zero.mpr (fun d hdm => by
      simp [hnotmem d (by rw [hmd]; exact List.mem_append_left _ hdm)])
  have cpostT : post.countP (fun d => d.name == nextTstName st.metadata) = 0 :=
    List.countP_eq_zero.mpr (fun d hdm => by
      simp [hnotmem d (by rw [hmd]; exact List.mem_append_right _ (List.mem_cons_of_mem hd hdm))])
  refine ⟨?_, ⟨_, hmeta⟩, hfresh, ⟨kT, hkT1, hkT2, hkT3, hkT4⟩, ?_,
    ⟨kM, hkM1, hkM2, hkM3, hkM4⟩, ?_, ?_⟩
  · rw [hmeta]
    simp [List.countP_append, List.countP_cons, cpre, cpost, hM_ne_head, hT_ne_head]
  · rw [hmeta]
    have hhead_ne_T : headManifestName ≠ nextTstName st.metadata := fun h => hT_ne_head h.symm
    simp [List.countP_append, List.countP_cons, cpreT, cpostT, hM_ne_T, hhead_ne_T]
  · intro h001
    have e1 : mfsFmt 1 = "META-INF/ASiCArchiveManifest001.xml" := rfl
    have hk1 : kM = 1 := by
      by_contra hne
      have h1lt : 1 < kM := by omega
      have := hkM3 1 (Nat.le_refl 1) h1lt
      rw [e1, h001] at this
      cases this
    rw [hkM4, hk1, e1]
  · rw [hSign]

/-- C2 (witness), at the concrete chained container `stS`. -/
theorem C2_witness :
    stS.signatures ≠ [] ∧
    (sign extT stS ASIC_TST_PROFILE "T1").1.metadata.countP
      (fun d => d.name == headManifestName) = 1 :=
  ⟨by decide,
   (C2_sign_chain_growth extT stS
     [⟨"META-INF/timestamp.tst", tstTokenMime, "T0", false⟩] []
     ⟨"META-INF/ASiCArchiveManifest.xml", "text/xml", "M0", false⟩ "T1"
     (by decide) rfl rfl (by decide) (by decide)).1⟩

end ASiCS
